import Mathlib

/-!
Shallow embedding of the streaming translation service
(`app/main.py` and `app/translator.py`): the mock translator, the
language classifier with its deterministic fallback, the engine-handle
lazy loader, and the websocket session handler, together with proofs of
the specification claims about them.
-/

set_option maxRecDepth 4000

/-! ## Python string primitives -/

/-- Embedding of Python `str.lower()` (ASCII-adequate for this code base). -/
def pyLower (s : String) : String := ⟨s.data.map Char.toLower⟩

/-- Right strip on character lists: remove trailing characters satisfying `p`. -/
def dropR (p : Char → Bool) (l : List Char) : List Char :=
  (l.reverse.dropWhile p).reverse

/-- Strip on character lists: remove leading and trailing characters satisfying `p`,
as Python `str.strip(chars)` does. -/
def stripBoth (p : Char → Bool) (l : List Char) : List Char :=
  dropR p (l.dropWhile p)

/-- Embedding of Python `str.strip()` (no argument: whitespace on both sides). -/
def pyStrip (s : String) : String := ⟨stripBoth Char.isWhitespace s.data⟩

/-- Embedding of Python `str.rstrip()`-style trailing-whitespace removal. -/
def pyRstrip (s : String) : String := ⟨dropR Char.isWhitespace s.data⟩

/-- Embedding of Python `word.strip(".,!?")`: strip those four punctuation
characters from both ends. -/
def pyStripPunct (s : String) : String :=
  ⟨stripBoth (fun c => c = '.' || c = ',' || c = '!' || c = '?') s.data⟩

/-- Worker for whitespace tokenization: `acc` holds the characters of the
current in-progress word, reversed. -/
def wordsAux : List Char → List Char → List (List Char)
  | [], acc => if acc = [] then [] else [acc.reverse]
  | c :: rest, acc =>
    if c.isWhitespace then
      if acc = [] then wordsAux rest [] else acc.reverse :: wordsAux rest []
    else
      wordsAux rest (c :: acc)

/-- Embedding of Python `str.split()` with no argument: split on runs of
whitespace, discarding empty pieces. -/
def pySplit (s : String) : List String :=
  (wordsAux s.data []).map (fun l => ⟨l⟩)

/-- Embedding of Python `" ".join(xs)`. -/
def joinSpace : List String → String
  | [] => ""
  | [w] => w
  | w :: ws => w ++ " " ++ joinSpace ws

/-- Left-fold accumulation of chunks, mirroring `full_translation += chunk`
in the websocket handler. -/
def accum (cs : List String) : String := cs.foldl (· ++ ·) ""

/-! ## `app/translator.py`: the mock translator -/

/-- The `MOCK_TRANSLATIONS` substitution table of `MockTranslator`,
as an association list in source order. -/
def MockTranslator.MOCK_TRANSLATIONS : List (String × String) :=
  [("bonjour", "hello"),
   ("monde", "world"),
   ("comment", "how"),
   ("allez", "are"),
   ("vous", "you"),
   ("je", "I"),
   ("suis", "am"),
   ("merci", "thank you"),
   ("oui", "yes"),
   ("non", "no"),
   ("bien", "well"),
   ("tres", "very"),
   ("aujourd\x27hui", "today")]

/-- Embedding of `MockTranslator.translate`: lower-case, whitespace-split,
strip `.,!?` from each word for the table lookup, substitute known words,
bracket-wrap the original (unstripped) word otherwise, and rejoin with
single spaces. -/
def MockTranslator.translate (text : String) : String :=
  let words := pySplit (pyLower text)
  let translated := words.map (fun word =>
    let clean_word := pyStripPunct word
    match MockTranslator.MOCK_TRANSLATIONS.find? (fun kv => kv.1 = clean_word) with
    | some kv => kv.2
    | none => "[" ++ word ++ "]")
  joinSpace translated

/-- Embedding of `MockTranslator.translate_stream`: the list of chunks the
async generator yields, namely each whitespace token of the blocking
translation followed by a single space. -/
def MockTranslator.translate_stream (text : String) : List String :=
  (pySplit (MockTranslator.translate text)).map (fun w => w ++ " ")

/-! ## `app/main.py`: language detection -/

/-- The `french_indicators` fallback lexicon of `detect_french`, in source order. -/
def french_indicators : List String :=
  ["je", "tu", "il", "elle", "nous", "vous", "ils", "elles",
   "le", "la", "les", "un", "une", "des", "de", "du",
   "est", "sont", "suis", "es", "sommes", "etes",
   "bonjour", "merci", "oui", "non", "avec", "pour",
   "que", "qui", "quoi", "comment", "pourquoi", "ou"]

/-- Embedding of the deterministic fallback branch of `detect_french`
(the `except` arm): count lower-cased whitespace tokens that are in the
fallback lexicon, confidence = count / max(len(words), 1), French iff
confidence > 0.3. -/
def detectFrenchFallback (text : String) : Bool × ℚ :=
  let words := pySplit (pyLower text)
  let french_count := words.countP (fun w => french_indicators.contains w)
  let confidence : ℚ := (french_count : ℚ) / ((max words.length 1 : ℕ) : ℚ)
  (decide ((3 : ℚ) / 10 < confidence), confidence)

/-- Outcome of the statistical detector (`langdetect.detect_langs`):
either a ranked candidate list of (language code, probability), or a
raised exception / unavailable library. -/
inductive DetectorOutcome where
  | ok (results : List (String × ℚ))
  | failure
deriving DecidableEq

/-- Boundary contract of the statistical detector (`langdetect`): every
candidate carries a probability, i.e. a value in `[0, 1]`. A failed
detector promises nothing. -/
def DetectorOutcome.validProbs : DetectorOutcome → Prop
  | .ok results => ∀ r ∈ results, 0 ≤ r.2 ∧ r.2 ≤ 1
  | .failure => True

/-- Embedding of `detect_french`: try the statistical detector, return the
first `"fr"` candidate's probability, `(false, 0)` when no candidate is
French, and fall back to the lexical heuristic when the detector fails. -/
def detect_french (det : DetectorOutcome) (text : String) : Bool × ℚ :=
  match det with
  | .ok results =>
    match results.find? (fun r => r.1 = "fr") with
    | some r => (true, r.2)
    | none => (false, 0)
  | .failure => detectFrenchFallback text

/-! ## `app/main.py`: the websocket session handler -/

/-- Outbound websocket events of `websocket_translate`. -/
inductive Event where
  | translation_start (original : String)
  | translation_chunk (chunk : String)
  | translation_end (full_translation : String)
  | detection_result (text : String) (is_french : Bool) (confidence : ℚ)
  | error (message : String)
deriving DecidableEq

/-- An inbound websocket message after `json.loads`: `message.get("type")`
(absent field gives `none`) and `message.get("text", "")`. -/
structure InMessage where
  msgType : Option String
  text : String
deriving DecidableEq

/-- What the chunk stream of one translate request produces before the
`async for` loop finishes: either all chunks followed by normal completion,
or the chunks emitted before an exception with the exception's message. -/
inductive StreamOutcome where
  | ok (chunks : List String)
  | err (chunks : List String) (msg : String)
deriving DecidableEq

/-- The chunk list of a stream outcome. -/
def StreamOutcome.chunks : StreamOutcome → List String
  | .ok cs => cs
  | .err cs _ => cs

/-- Events emitted by the `translate` branch of `websocket_translate` for one
request: `translation_start`, one `translation_chunk` per produced chunk,
then `translation_end` carrying the stripped accumulated text on normal
completion, or an `error` event when the stream raised. -/
def translateEvents (text : String) (o : StreamOutcome) : List Event :=
  match o with
  | .ok cs =>
      Event.translation_start text ::
        (cs.map Event.translation_chunk ++
          [Event.translation_end (pyStrip (accum cs))])
  | .err cs m =>
      Event.translation_start text ::
        (cs.map Event.translation_chunk ++
          [Event.error ("Translation failed: " ++ m)])

/-- Rendering of the Python `msg_type` value inside the f-string
`f"Unknown message type: {msg_type}"`: an absent field prints as `None`. -/
def typeName : Option String → String
  | none => "None"
  | some s => s

/-- Embedding of one iteration of the `websocket_translate` receive loop:
strip the text, reject empty text, dispatch on the message type. The
statistical detector outcome and the chunk stream are parameters. -/
def handleMessage (det : DetectorOutcome) (stream : String → StreamOutcome)
    (msg : InMessage) : List Event :=
  let text := pyStrip msg.text
  if text = "" then
    [Event.error "Empty text received"]
  else if msg.msgType = some "detect" then
    let r := detect_french det text
    [Event.detection_result text r.1 r.2]
  else if msg.msgType = some "translate" then
    translateEvents text (stream text)
  else
    [Event.error ("Unknown message type: " ++ typeName msg.msgType)]

/-- The chunk stream used in mock mode (`USE_MOCK`): the chunks of
`MockTranslator.translate_stream`, completing normally. -/
def mockStream (text : String) : StreamOutcome :=
  StreamOutcome.ok (MockTranslator.translate_stream text)

/-- Embedding of the whole `while True` receive loop of
`websocket_translate`: inbound messages are handled strictly one after the
other, each one's events emitted before the next message is read. -/
def processSession (det : DetectorOutcome) (stream : String → StreamOutcome)
    (msgs : List InMessage) : List Event :=
  msgs.flatMap (handleMessage det stream)

/-! ## `app/translator.py`: the lazy model loader -/

/-- Embedding of `load_model` under the serialization provided by
`_model_lock`: the global `(_model, _processor)` pair is `Option`-valued
state; a call returns the stored pair when present and otherwise runs
initialization (abstracted as the `fresh` pair the library load would
produce) and stores it. Returns the new state and the returned pair. -/
def load_model {M P : Type} (fresh : M × P) (s : Option (M × P)) :
    Option (M × P) × (M × P) :=
  match s with
  | some mp => (some mp, mp)
  | none => (some fresh, fresh)

/-! ## Event classifiers -/

/-- Is the event a `translation_start`. -/
def isStart : Event → Bool
  | .translation_start _ => true
  | _ => false

/-- Is the event a terminal event of a generation (`translation_end` or `error`). -/
def isTerminal : Event → Bool
  | .translation_end _ => true
  | .error _ => true
  | _ => false

/-- Is the event an `error`. -/
def isError : Event → Bool
  | .error _ => true
  | _ => false

/-- The payload of a `translation_chunk` event. -/
def chunkText : Event → Option String
  | .translation_chunk c => some c
  | _ => none

/-! ## Helper lemmas on character lists and strings -/

/-- Character-list version of `joinSpace`: join words with single spaces. -/
def joinSpL : List (List Char) → List Char
  | [] => []
  | [w] => w
  | w :: ws => w ++ ' ' :: joinSpL ws

theorem dropWhile_append_left {α : Type} {p : α → Bool} :
    ∀ (u v : List α), u.dropWhile p ≠ [] → (u ++ v).dropWhile p = u.dropWhile p ++ v := by
  intro u
  induction u with
  | nil => intro v h; simp at h
  | cons c u ih =>
    intro v h
    by_cases hc : p c
    · simp only [List.cons_append, List.dropWhile_cons_of_pos hc] at h ⊢
      exact ih v h
    · simp only [List.cons_append, List.dropWhile_cons_of_neg hc]

theorem dropR_append (p : Char → Bool) (a b : List Char) (h : dropR p b ≠ []) :
    dropR p (a ++ b) = a ++ dropR p b := by
  have hb : b.reverse.dropWhile p ≠ [] := by
    intro hnil
    apply h
    simp [dropR, hnil]
  simp only [dropR, List.reverse_append]
  rw [dropWhile_append_left _ _ hb, List.reverse_append, List.reverse_reverse]

theorem dropWhile_eq_self_of_forall {α : Type} (p : α → Bool) (l : List α)
    (h : ∀ c ∈ l, p c = false) : l.dropWhile p = l := by
  cases l with
  | nil => rfl
  | cons c l =>
    exact List.dropWhile_cons_of_neg (by simp [h c (List.mem_cons_self c l)])

theorem dropR_word_space (w : List Char)
    (hws : ∀ c ∈ w, Char.isWhitespace c = false) :
    dropR Char.isWhitespace (w ++ [' ']) = w := by
  have hsp : Char.isWhitespace ' ' = true := by decide
  simp only [dropR, List.reverse_append, List.reverse_singleton, List.singleton_append,
    List.dropWhile_cons_of_pos hsp]
  rw [dropWhile_eq_self_of_forall _ _ (fun c hc => hws c (List.mem_reverse.mp hc)),
    List.reverse_reverse]

theorem joinSpL_ne_nil (w : List Char) (ws : List (List Char)) (h : w ≠ []) :
    joinSpL (w :: ws) ≠ [] := by
  cases ws with
  | nil => simpa [joinSpL] using h
  | cons r rs => simp [joinSpL, h]

theorem dropR_joinWords :
    ∀ ws : List (List Char),
      (∀ w ∈ ws, w ≠ [] ∧ ∀ c ∈ w, Char.isWhitespace c = false) →
      dropR Char.isWhitespace ((ws.map (fun w => w ++ [' '])).flatten) = joinSpL ws := by
  intro ws
  induction ws with
  | nil => intro _; rfl
  | cons w rest ih =>
    intro h
    obtain ⟨hwne, hwws⟩ := h w (List.mem_cons_self w rest)
    have hrest := fun x hx => h x (List.mem_cons_of_mem w hx)
    cases rest with
    | nil =>
      simp only [List.map_cons, List.map_nil, List.flatten_cons, List.flatten_nil,
        List.append_nil, joinSpL]
      exact dropR_word_space w hwws
    | cons r rs =>
      obtain ⟨hrne, _⟩ := hrest r (List.mem_cons_self r rs)
      have hjoin : dropR Char.isWhitespace (((r :: rs).map (fun w => w ++ [' '])).flatten)
          = joinSpL (r :: rs) := ih hrest
      have hne2 : dropR Char.isWhitespace (((r :: rs).map (fun w => w ++ [' '])).flatten) ≠ [] := by
        rw [hjoin]
        exact joinSpL_ne_nil r rs hrne
      calc dropR Char.isWhitespace (((w :: r :: rs).map (fun w => w ++ [' '])).flatten)
          = dropR Char.isWhitespace ((w ++ [' ']) ++
              ((r :: rs).map (fun w => w ++ [' '])).flatten) := by
            simp [List.flatten_cons]
        _ = (w ++ [' ']) ++ dropR Char.isWhitespace
              (((r :: rs).map (fun w => w ++ [' '])).flatten) :=
            dropR_append _ _ _ hne2
        _ = (w ++ [' ']) ++ joinSpL (r :: rs) := by rw [hjoin]
        _ = joinSpL (w :: r :: rs) := by simp [joinSpL]

theorem wordsAux_words :
    ∀ (l acc : List Char), (∀ c ∈ acc, Char.isWhitespace c = false) →
      ∀ w ∈ wordsAux l acc, w ≠ [] ∧ ∀ c ∈ w, Char.isWhitespace c = false := by
  intro l
  induction l with
  | nil =>
    intro acc hacc w hw
    simp only [wordsAux] at hw
    split at hw
    · simp at hw
    · rename_i hne
      simp only [List.mem_singleton] at hw
      subst hw
      refine ⟨by simpa using hne, fun c hc => hacc c (List.mem_reverse.mp hc)⟩
  | cons c rest ih =>
    intro acc hacc w hw
    simp only [wordsAux] at hw
    by_cases hc : c.isWhitespace
    · rw [if_pos hc] at hw
      split at hw
      · exact ih [] (by simp) w hw
      · rename_i hne
        rcases List.mem_cons.mp hw with h1 | h2
        · subst h1
          refine ⟨by simpa using hne, fun d hd => hacc d (List.mem_reverse.mp hd)⟩
        · exact ih [] (by simp) w h2
    · rw [if_neg hc] at hw
      refine ih (c :: acc) ?_ w hw
      intro d hd
      rcases List.mem_cons.mp hd with h1 | h2
      · subst h1; simpa using hc
      · exact hacc d h2

theorem pySplit_words (s : String) :
    ∀ w ∈ pySplit s, w.data ≠ [] ∧ ∀ c ∈ w.data, Char.isWhitespace c = false := by
  intro w hw
  simp only [pySplit, List.mem_map] at hw
  obtain ⟨l, hl, rfl⟩ := hw
  exact wordsAux_words s.data [] (by simp) l hl

theorem accum_foldl (cs : List String) :
    ∀ a : String, cs.foldl (· ++ ·) a = a ++ accum cs := by
  induction cs with
  | nil => intro a; simp [accum]
  | cons c cs ih =>
    intro a
    show cs.foldl (· ++ ·) (a ++ c) = a ++ accum (c :: cs)
    rw [ih (a ++ c)]
    show a ++ c ++ accum cs = a ++ cs.foldl (· ++ ·) ("" ++ c)
    rw [ih ("" ++ c), String.empty_append, String.append_assoc]

theorem accum_cons (c : String) (cs : List String) : accum (c :: cs) = c ++ accum cs := by
  show cs.foldl (· ++ ·) ("" ++ c) = c ++ accum cs
  rw [accum_foldl, String.empty_append]

theorem accum_data (cs : List String) :
    (accum cs).data = (cs.map String.data).flatten := by
  induction cs with
  | nil => rfl
  | cons c cs ih =>
    rw [accum_cons, String.data_append, ih]
    simp [List.flatten_cons]

theorem joinSpace_data :
    ∀ ws : List String, (joinSpace ws).data = joinSpL (ws.map String.data) := by
  intro ws
  induction ws with
  | nil => rfl
  | cons w rest ih =>
    cases rest with
    | nil => rfl
    | cons r rs =>
      show (w ++ " " ++ joinSpace (r :: rs)).data = joinSpL (w.data :: (r :: rs).map String.data)
      rw [String.data_append, String.data_append, ih]
      simp [joinSpL]

theorem countP_map_chunk (p : Event → Bool) (hp : ∀ c, p (Event.translation_chunk c) = false)
    (cs : List String) : (cs.map Event.translation_chunk).countP p = 0 := by
  induction cs with
  | nil => rfl
  | cons c cs ih => simp [List.countP_cons, hp, ih]

theorem handleMessage_translate (det : DetectorOutcome) (stream : String → StreamOutcome)
    (t : String) (h : pyStrip t ≠ "") :
    handleMessage det stream ⟨some "translate", t⟩
      = translateEvents (pyStrip t) (stream (pyStrip t)) := by
  simp [handleMessage, h]

/-! ## Claim theorems -/

/-- Claim C1 counterexample: in mock-engine mode, translating
`"Bonjour le monde"` ends with `full_translation = "hello [le] world"`,
not `"hello [le] [monde]"`: `"monde"` is a key of the substitution table
(mapped to `"world"`), so it is substituted rather than bracket-wrapped. -/
theorem claim_C1_counterexample :
    (processSession DetectorOutcome.failure mockStream
        [⟨some "translate", "Bonjour le monde"⟩]).getLast?
      = some (Event.translation_end "hello [le] world")
    ∧ "hello [le] world" ≠ "hello [le] [monde]" :=
  ⟨by decide, by decide⟩

/-- Claim C1 as amended: in mock-engine mode, an end-to-end Translate of
`"Bonjour le monde"` produces a `translation_start` event with original
`"Bonjour le monde"`, one or more `translation_chunk` events, and a
`translation_end` event whose `full_translation` is `"hello [le] world"`
(`"bonjour"` and `"monde"` are in the lower-case-keyed substitution table;
the unknown token `"le"` passes through bracket-wrapped). -/
theorem claim_C1 :
    processSession DetectorOutcome.failure mockStream
        [⟨some "translate", "Bonjour le monde"⟩]
      = [Event.translation_start "Bonjour le monde",
         Event.translation_chunk "hello ",
         Event.translation_chunk "[le] ",
         Event.translation_chunk "world ",
         Event.translation_end "hello [le] world"] := by
  decide

/-- Claim C2 counterexample: two consecutive Translate requests on one
session both complete normally and zero `error` events are emitted; the
second request is processed after the first finishes instead of being
rejected with an error event. -/
theorem claim_C2_counterexample :
    processSession DetectorOutcome.failure mockStream
        [⟨some "translate", "bonjour"⟩, ⟨some "translate", "oui"⟩]
      = [Event.translation_start "bonjour", Event.translation_chunk "hello ",
         Event.translation_end "hello",
         Event.translation_start "oui", Event.translation_chunk "yes ",
         Event.translation_end "yes"]
    ∧ (processSession DetectorOutcome.failure mockStream
        [⟨some "translate", "bonjour"⟩, ⟨some "translate", "oui"⟩]).countP isError = 0 :=
  ⟨by decide, by decide⟩

/-- Claim C2 as amended: a Translate message sent while a prior Translate is
generating is not rejected and produces no error event; the session reads it
only after the prior generation's terminal event and then processes it as a
normal request, so the event stream is the first generation's complete event
block followed by the second's, with no interleaving. -/
theorem claim_C2 (det : DetectorOutcome) (stream : String → StreamOutcome)
    (t1 t2 : String) (h1 : pyStrip t1 ≠ "") (h2 : pyStrip t2 ≠ "") :
    processSession det stream [⟨some "translate", t1⟩, ⟨some "translate", t2⟩]
      = translateEvents (pyStrip t1) (stream (pyStrip t1))
          ++ translateEvents (pyStrip t2) (stream (pyStrip t2)) := by
  show handleMessage det stream ⟨some "translate", t1⟩
      ++ (handleMessage det stream ⟨some "translate", t2⟩ ++ []) = _
  rw [handleMessage_translate det stream t1 h1, handleMessage_translate det stream t2 h2,
    List.append_nil]

/-- Claim C2 witness: the amended statement instantiated at two concrete
consecutive Translate requests. -/
theorem claim_C2_witness :
    processSession DetectorOutcome.failure mockStream
        [⟨some "translate", "bonjour"⟩, ⟨some "translate", "merci"⟩]
      = translateEvents (pyStrip "bonjour") (mockStream (pyStrip "bonjour"))
          ++ translateEvents (pyStrip "merci") (mockStream (pyStrip "merci")) :=
  claim_C2 DetectorOutcome.failure mockStream "bonjour" "merci" (by decide) (by decide)

/-- Claim C3: every Translate operation emits exactly one
`translation_start`, then zero or more `translation_chunk` events, then
exactly one terminal event (`translation_end` or `error`), in that order;
and the session emits each message's events in full before any event of a
later message, so no later generation's events precede a prior generation's
terminal event. -/
theorem claim_C3 :
    (∀ (text : String) (o : StreamOutcome), ∃ (cs : List String) (term : Event),
      translateEvents text o
        = Event.translation_start text :: (cs.map Event.translation_chunk ++ [term])
      ∧ isTerminal term = true
      ∧ (translateEvents text o).countP isStart = 1
      ∧ (translateEvents text o).countP isTerminal = 1)
    ∧ (∀ (det : DetectorOutcome) (stream : String → StreamOutcome)
        (m : InMessage) (ms : List InMessage),
        processSession det stream (m :: ms)
          = handleMessage det stream m ++ processSession det stream ms) := by
  constructor
  · intro text o
    cases o with
    | ok cs =>
      refine ⟨cs, Event.translation_end (pyStrip (accum cs)), rfl, rfl, ?_, ?_⟩
      · simp [translateEvents, List.countP_cons, List.countP_append,
          countP_map_chunk isStart (fun _ => rfl), isStart]
      · simp [translateEvents, List.countP_cons, List.countP_append,
          countP_map_chunk isTerminal (fun _ => rfl), isTerminal]
    | err cs m =>
      refine ⟨cs, Event.error ("Translation failed: " ++ m), rfl, rfl, ?_, ?_⟩
      · simp [translateEvents, List.countP_cons, List.countP_append,
          countP_map_chunk isStart (fun _ => rfl), isStart]
      · simp [translateEvents, List.countP_cons, List.countP_append,
          countP_map_chunk isTerminal (fun _ => rfl), isTerminal]
  · intro det stream m ms
    simp [processSession]

/-- Claim C4: for every successfully completed generation, the
`translation_end` event carries the concatenation (in emission order) of
exactly the chunks the producer emitted, whitespace-stripped once at
completion, and the emitted `translation_chunk` events carry exactly the
producer's chunks unchanged. -/
theorem claim_C4 (text : String) (cs : List String) :
    translateEvents text (StreamOutcome.ok cs)
      = Event.translation_start text ::
          (cs.map Event.translation_chunk ++
            [Event.translation_end (pyStrip (accum cs))])
    ∧ (translateEvents text (StreamOutcome.ok cs)).filterMap chunkText = cs := by
  refine ⟨rfl, ?_⟩
  show (Event.translation_start text ::
      (cs.map Event.translation_chunk ++
        [Event.translation_end (pyStrip (accum cs))])).filterMap chunkText = cs
  have hcomp : chunkText ∘ Event.translation_chunk = some := rfl
  simp [chunkText, List.filterMap_append, List.filterMap_map, hcomp]

/-- Claim C5: with the statistical detector failed, the deterministic
fallback classifies `"Je suis content"` as French with confidence `2/3`
(tokens `"je"` and `"suis"` are in the lexicon, `"content"` is not), and a
Detect message with this text produces a `detection_result` event carrying
these values. -/
theorem claim_C5 :
    detectFrenchFallback "Je suis content" = (true, 2/3)
    ∧ handleMessage DetectorOutcome.failure mockStream ⟨some "detect", "Je suis content"⟩
        = [Event.detection_result "Je suis content" true (2/3)] := by
  have hsplit : pySplit (pyLower "Je suis content") = ["je", "suis", "content"] := by decide
  have hcnt : List.countP (fun w => french_indicators.contains w) ["je", "suis", "content"]
      = 2 := by decide
  have hfb : detectFrenchFallback "Je suis content" = (true, 2/3) := by
    simp only [detectFrenchFallback, hsplit, hcnt]
    norm_num
  refine ⟨hfb, ?_⟩
  have hstrip : pyStrip "Je suis content" = "Je suis content" := by decide
  have e : handleMessage DetectorOutcome.failure mockStream ⟨some "detect", "Je suis content"⟩
      = [Event.detection_result (pyStrip "Je suis content")
           (detect_french DetectorOutcome.failure (pyStrip "Je suis content")).1
           (detect_french DetectorOutcome.failure (pyStrip "Je suis content")).2] := rfl
  rw [e, hstrip, show detect_french DetectorOutcome.failure "Je suis content" = (true, 2/3)
    from hfb]

/-- Claim C6: classification as a whole (statistical path with its
probability contract, no-French-candidate path, and fallback path alike)
always terminates with a confidence in `[0,1]`; on the fallback path the
confidence equals (lexicon-matching token count) / max(token count, 1),
the input is French exactly when the confidence exceeds 0.3, and any input
whose lower-cased tokens (at least one) all lie in the fallback lexicon is
classified as French. -/
theorem claim_C6 (det : DetectorOutcome) (text : String)
    (hdet : det.validProbs) :
    (0 ≤ (detect_french det text).2 ∧ (detect_french det text).2 ≤ 1)
    ∧ 0 ≤ (detectFrenchFallback text).2
    ∧ (detectFrenchFallback text).2 ≤ 1
    ∧ (detectFrenchFallback text).1 = decide ((3 : ℚ) / 10 < (detectFrenchFallback text).2)
    ∧ (detectFrenchFallback text).2
        = (((pySplit (pyLower text)).countP (fun w => french_indicators.contains w) : ℕ) : ℚ)
            / ((max (pySplit (pyLower text)).length 1 : ℕ) : ℚ)
    ∧ (pySplit (pyLower text) ≠ [] →
        (∀ w ∈ pySplit (pyLower text), french_indicators.contains w = true) →
        (detectFrenchFallback text).1 = true) := by
  have hle : ((pySplit (pyLower text)).countP (fun w => french_indicators.contains w) : ℕ)
      ≤ max (pySplit (pyLower text)).length 1 :=
    le_trans (List.countP_le_length _) (Nat.le_max_left _ _)
  have hposn : (0 : ℚ) < ((max (pySplit (pyLower text)).length 1 : ℕ) : ℚ) := by
    have : (1 : ℕ) ≤ max (pySplit (pyLower text)).length 1 := Nat.le_max_right _ _
    exact_mod_cast Nat.lt_of_lt_of_le Nat.zero_lt_one this
  have h0fb : 0 ≤ (detectFrenchFallback text).2 := by
    show (0 : ℚ)
      ≤ (((pySplit (pyLower text)).countP (fun w => french_indicators.contains w) : ℕ) : ℚ)
          / ((max (pySplit (pyLower text)).length 1 : ℕ) : ℚ)
    exact div_nonneg (Nat.cast_nonneg _) (Nat.cast_nonneg _)
  have h1fb : (detectFrenchFallback text).2 ≤ 1 := by
    show (((pySplit (pyLower text)).countP (fun w => french_indicators.contains w) : ℕ) : ℚ)
        / ((max (pySplit (pyLower text)).length 1 : ℕ) : ℚ) ≤ 1
    rw [div_le_one hposn]
    exact_mod_cast hle
  refine ⟨?_, h0fb, h1fb, rfl, rfl, ?_⟩
  · cases det with
    | failure => exact ⟨h0fb, h1fb⟩
    | ok results =>
      have hdet2 : ∀ r ∈ results, 0 ≤ r.2 ∧ r.2 ≤ 1 := hdet
      cases hfind : results.find? (fun r => r.1 = "fr") with
      | none =>
        have e : detect_french (DetectorOutcome.ok results) text = (false, 0) := by
          simp [detect_french, hfind]
        rw [e]
        norm_num
      | some r =>
        have e : detect_french (DetectorOutcome.ok results) text = (true, r.2) := by
          simp [detect_french, hfind]
        rw [e]
        exact hdet2 r (List.mem_of_find?_eq_some hfind)
  · intro hne hall
    have hcnt : (pySplit (pyLower text)).countP (fun w => french_indicators.contains w)
        = (pySplit (pyLower text)).length := by
      rw [List.countP_eq_length]
      exact hall
    have hlen : 1 ≤ (pySplit (pyLower text)).length := List.length_pos.mpr hne
    have hmax : max (pySplit (pyLower text)).length 1 = (pySplit (pyLower text)).length :=
      Nat.max_eq_left hlen
    have hnz : ((pySplit (pyLower text)).length : ℚ) ≠ 0 := by
      exact_mod_cast Nat.one_le_iff_ne_zero.mp hlen
    show decide ((3 : ℚ) / 10 <
        (((pySplit (pyLower text)).countP (fun w => french_indicators.contains w) : ℕ) : ℚ)
          / ((max (pySplit (pyLower text)).length 1 : ℕ) : ℚ)) = true
    rw [hcnt, hmax, div_self hnz]
    norm_num

/-- Claim C6 witness: the input `"je suis"` consists only of lexicon tokens,
so the fallback classifies it as French with confidence in `[0,1]`; and on
the statistical path a detector answering `("fr", 1)` gives a confidence in
`[0,1]`. -/
theorem claim_C6_witness :
    (detectFrenchFallback "je suis").1 = true
    ∧ 0 ≤ (detectFrenchFallback "je suis").2
    ∧ (0 ≤ (detect_french (DetectorOutcome.ok [("fr", 1)]) "Je suis content").2
        ∧ (detect_french (DetectorOutcome.ok [("fr", 1)]) "Je suis content").2 ≤ 1) := by
  obtain ⟨-, h0, -, -, -, himp⟩ := claim_C6 DetectorOutcome.failure "je suis" trivial
  refine ⟨himp (by decide) (by decide), h0, ?_⟩
  exact (claim_C6 (DetectorOutcome.ok [("fr", 1)]) "Je suis content"
    (fun r hr => by
      rcases List.mem_singleton.mp hr with rfl
      exact ⟨zero_le_one, le_rfl⟩)).1

/-- Claim C7: a message of any type whose text is empty after stripping
produces exactly one `error` event with message `"Empty text received"`,
independently of the classifier and the generation stream (neither is
consulted), and the rest of the session continues unchanged. -/
theorem claim_C7 (det : DetectorOutcome) (stream : String → StreamOutcome)
    (msg : InMessage) (h : pyStrip msg.text = "") :
    handleMessage det stream msg = [Event.error "Empty text received"]
    ∧ ∀ rest : List InMessage,
        processSession det stream (msg :: rest)
          = Event.error "Empty text received" :: processSession det stream rest := by
  have h1 : handleMessage det stream msg = [Event.error "Empty text received"] := by
    simp [handleMessage, h]
  exact ⟨h1, fun rest => by simp [processSession, h1]⟩

/-- Claim C7 witness: a Translate message whose text is all whitespace
produces exactly the single empty-text error event. -/
theorem claim_C7_witness :
    handleMessage DetectorOutcome.failure mockStream ⟨some "translate", "   "⟩
      = [Event.error "Empty text received"] :=
  (claim_C7 DetectorOutcome.failure mockStream ⟨some "translate", "   "⟩ (by decide)).1

/-- Claim C8 counterexample: a message with unknown type `"foo"` but
whitespace-only text is answered with the empty-text error, whose message
does not name the unknown type — the empty-text check precedes the
type dispatch. -/
theorem claim_C8_counterexample :
    handleMessage DetectorOutcome.failure mockStream ⟨some "foo", " "⟩
      = [Event.error "Empty text received"]
    ∧ "Empty text received" ≠ "Unknown message type: foo" :=
  ⟨by decide, by decide⟩

/-- Claim C8 as amended: every inbound message with non-empty stripped text
whose type is neither `"detect"` nor `"translate"` produces exactly one
`error` event naming the unknown type, and the rest of the session
continues unchanged. -/
theorem claim_C8 (det : DetectorOutcome) (stream : String → StreamOutcome)
    (msg : InMessage) (hne : pyStrip msg.text ≠ "")
    (hd : msg.msgType ≠ some "detect") (ht : msg.msgType ≠ some "translate") :
    handleMessage det stream msg
      = [Event.error ("Unknown message type: " ++ typeName msg.msgType)]
    ∧ ∀ rest : List InMessage,
        processSession det stream (msg :: rest)
          = Event.error ("Unknown message type: " ++ typeName msg.msgType)
              :: processSession det stream rest := by
  have h1 : handleMessage det stream msg
      = [Event.error ("Unknown message type: " ++ typeName msg.msgType)] := by
    simp [handleMessage, hne, hd, ht]
  exact ⟨h1, fun rest => by simp [processSession, h1]⟩

/-- Claim C8 witness: the amended statement instantiated at a message of
type `"foo"` with non-empty text. -/
theorem claim_C8_witness :
    handleMessage DetectorOutcome.failure mockStream ⟨some "foo", "bonjour"⟩
      = [Event.error "Unknown message type: foo"] :=
  (claim_C8 DetectorOutcome.failure mockStream ⟨some "foo", "bonjour"⟩
    (by decide) (by decide) (by decide)).1

/-- Claim C9: `load_model` is an idempotent lazy initializer of the
process-wide engine handle (calls serialized by the model lock): the first
call from the empty state runs initialization and stores the pair, the
state always holds the returned pair, and every subsequent call returns
the same stored pair without re-running initialization, whatever a re-run
would have produced. -/
theorem claim_C9 {M P : Type} (fresh fresh2 : M × P) (s : Option (M × P)) :
    (load_model fresh s).1 = some (load_model fresh s).2
    ∧ load_model fresh2 (load_model fresh s).1
        = ((load_model fresh s).1, (load_model fresh s).2)
    ∧ load_model fresh none = (some fresh, fresh) := by
  cases s <;> simp [load_model]

/-- Claim C10: each chunk of the streaming mock translator is one
whitespace token of the blocking mock translation followed by a single
space, in order, and the concatenation of all chunks with trailing
whitespace stripped equals the single-space rejoining of the blocking
translation's tokens. -/
theorem claim_C10 (text : String) :
    MockTranslator.translate_stream text
      = (pySplit (MockTranslator.translate text)).map (fun w => w ++ " ")
    ∧ pyRstrip (accum (MockTranslator.translate_stream text))
      = joinSpace (pySplit (MockTranslator.translate text)) := by
  refine ⟨rfl, ?_⟩
  have hprops := pySplit_words (MockTranslator.translate text)
  have hdata : (accum ((pySplit (MockTranslator.translate text)).map (fun w => w ++ " "))).data
      = (((pySplit (MockTranslator.translate text)).map String.data).map
          (fun w => w ++ [' '])).flatten := by
    rw [accum_data, List.map_map, List.map_map]
    congr 1
  have hwords : ∀ w ∈ (pySplit (MockTranslator.translate text)).map String.data,
      w ≠ [] ∧ ∀ c ∈ w, Char.isWhitespace c = false := by
    intro w hw
    obtain ⟨x, hx, rfl⟩ := List.mem_map.mp hw
    exact hprops x hx
  show String.mk (dropR Char.isWhitespace
      (accum ((pySplit (MockTranslator.translate text)).map (fun w => w ++ " "))).data)
    = joinSpace (pySplit (MockTranslator.translate text))
  rw [hdata, dropR_joinWords _ hwords, ← joinSpace_data]
